import Mathlib

/-!
A shallow embedding of the document coordination layer in `dynamo/doc.go`
(package `dynamo`): the `Store` methods `GetDoc`, `ListDocs`, `listDocs`,
`listTaggedDocs`, `PutDoc`, `TagDoc` and `RemoveDoc`, together with the
collaborating stores they orchestrate (file store, dynamo tables, text index).

Modelling conventions:
- Timestamps are `Nat`; the two `time.Now()` calls inside one `PutDoc`
  invocation are modelled as a single `now` argument (same wall-clock instant).
- Go errors are the inductive `Err`; `errors.Wrap`/`Wrapf` is `Err.wrap`
  with the format string already applied.
- The dynamo tables and the file store are association lists keyed by string;
  the text index is a function from queries to path lists (its `Search` is
  modelled as total — no claim concerns a failing search).
- Store writes that can fail in Go (dynamo `PutItemRequest`, `DeleteItemRequest`,
  file-store `WriteFile`/`RemoveFile`) carry an injectable failure in the
  `Store` state: when the corresponding `Option Err` field is `some e`, the
  operation fails with `e` and changes nothing, otherwise it succeeds.
- A Go nil slice and an empty slice are both the Lean `[]`; `paths == nil`
  in `listTaggedDocs` is translated as `paths.isEmpty` (a nil `[]string` is
  exactly one never assigned a nonempty value there: absent tag records
  unmarshal to nil `Paths`, and the `intersect` helper built with `append`
  returns nil when the intersection is empty).
-/

namespace Skribe

/-- Go error values as they flow through `doc.go`: `notFound` is the
docshelf not-found error, `msg` is `errors.New`, `fault` is an injected
failure of an underlying store call, `wrap` is `errors.Wrap`/`Wrapf`. -/
inductive Err where
  | notFound : Err
  | msg : String → Err
  | fault : Nat → Err
  | wrap : String → Err → Err
deriving DecidableEq

/-- Modelled from the spec: `docshelf.CheckDoesNotExist` is not under `src/`;
per §7 it recognises the `NotFound` taxonomy member, through `errors.Wrap`
chains (`errors.Cause`). -/
def CheckDoesNotExist : Err → Bool
  | .notFound => true
  | .wrap _ e => CheckDoesNotExist e
  | _ => false

/-- `e.mentions e'` holds when `e'` is `e` itself or occurs inside `e`'s
`errors.Wrap` chain: the returned error "reports" `e'`. -/
def Err.mentions : Err → Err → Bool
  | .wrap s inner, target => (Err.wrap s inner = target) || inner.mentions target
  | e, target => e = target

/-- The docshelf Document record: the fields of `docshelf.Doc` this layer
reads or writes (`Path`, `Content`, `CreatedAt`, `UpdatedAt`); the remaining
metadata fields are irrelevant to the coordinator. -/
structure Doc where
  path : String
  content : String
  createdAt : Nat
  updatedAt : Nat
deriving DecidableEq

/-- The Go zero value `docshelf.Doc{}`. -/
def Doc.empty : Doc := { path := "", content := "", createdAt := 0, updatedAt := 0 }

/-- The dynamo data structure of a tag (`Tag` in `doc.go`). -/
structure Tag where
  tag : String
  paths : List String
deriving DecidableEq

/-- The Go zero value `Tag{}`. -/
def Tag.empty : Tag := { tag := "", paths := [] }

/-- First-match association-list lookup (the semantics of a single-keyed
dynamo table). -/
def alookup {α : Type} : List (String × α) → String → Option α
  | [], _ => none
  | (k, v) :: rest, key => if k = key then some v else alookup rest key

/-- Key-replacing association-list insert (dynamo `PutItem` upsert). -/
def ainsert {α : Type} : List (String × α) → String → α → List (String × α)
  | [], key, v => [(key, v)]
  | (k, w) :: rest, key, v =>
    if k = key then (k, v) :: rest else (k, w) :: ainsert rest key v

/-- Association-list erase (dynamo `DeleteItem`, file-store remove). -/
def aerase {α : Type} : List (String × α) → String → List (String × α)
  | [], _ => []
  | (k, w) :: rest, key =>
    if k = key then aerase rest key else (k, w) :: aerase rest key

/-- Modelled from the spec: the `contains` helper of package `dynamo` is not
under `src/`; it is the linear membership test on a path slice ("the path is
already present in the tag's path set"). -/
def contains : List String → String → Bool
  | [], _ => false
  | y :: rest, x => if y = x then true else contains rest x

/-- Modelled from the spec: the `intersect` helper of package `dynamo` is not
under `src/`; §4.2 step 3 describes pairwise set intersection of ordered path
sequences, preserving the order of the first sequence. -/
def intersect (a b : List String) : List String :=
  a.filter (fun x => contains b x)

/-- The coordinator state: the two dynamo tables (documents keyed by path,
tags keyed by tag name), the file store contents, the text index, and the
injectable failures of the five fallible store calls. -/
structure Store where
  docTable : List (String × Doc)
  tagTable : List (String × Tag)
  files : List (String × String)
  ti : String → List String
  writeFileErr : Option Err
  removeFileErr : Option Err
  putDocItemErr : Option Err
  putTagItemErr : Option Err
  deleteItemErr : Option Err

/-- Modelled from the spec: `Store.getItem` is defined outside `src/`.
A dynamo `GetItemRequest` for an absent key succeeds with an empty item, and
unmarshalling leaves the output at its zero value — the behaviour `TagDoc`'s
in-source handling of zero-valued tags (`tag.Tag == ""`) relies on, and the
one §4.1 requires ("treat `NotFound` as no record yet, not an error"). -/
def getItemD {α : Type} (table : List (String × α)) (key : String) (dflt : α) : α :=
  (alookup table key).getD dflt

/-- Modelled from the spec: file-store `ReadFile` (§6), failing with
`NotFound` when no blob is stored for the path. -/
def Store.ReadFile (s : Store) (path : String) : Except Err String :=
  match alookup s.files path with
  | some c => .ok c
  | none => .error .notFound

/-- Modelled from the spec: file-store `WriteFile` (§6). -/
def Store.WriteFile (s : Store) (path content : String) : Except Err Unit × Store :=
  match s.writeFileErr with
  | some e => (.error e, s)
  | none => (.ok (), { s with files := ainsert s.files path content })

/-- Modelled from the spec: file-store `RemoveFile` (§6). -/
def Store.RemoveFile (s : Store) (path : String) : Except Err Unit × Store :=
  match s.removeFileErr with
  | some e => (.error e, s)
  | none => (.ok (), { s with files := aerase s.files path })

/-- `PutItemRequest` against the document table (upsert keyed by `path`). -/
def Store.putDocItem (s : Store) (doc : Doc) : Except Err Unit × Store :=
  match s.putDocItemErr with
  | some e => (.error e, s)
  | none => (.ok (), { s with docTable := ainsert s.docTable doc.path doc })

/-- `PutItemRequest` against the tag table (upsert keyed by the record's
`tag` attribute). -/
def Store.putTagItem (s : Store) (tag : Tag) : Except Err Unit × Store :=
  match s.putTagItemErr with
  | some e => (.error e, s)
  | none => (.ok (), { s with tagTable := ainsert s.tagTable tag.tag tag })

/-- `DeleteItemRequest` against the document table. -/
def Store.deleteDocItem (s : Store) (path : String) : Except Err Unit × Store :=
  match s.deleteItemErr with
  | some e => (.error e, s)
  | none => (.ok (), { s with docTable := aerase s.docTable path })

/-- `GetDoc` (doc.go:22): fetch the metadata record, then read and attach the
content blob from the file store. -/
def Store.GetDoc (s : Store) (path : String) : Except Err Doc :=
  let doc := getItemD s.docTable path Doc.empty
  match s.ReadFile path with
  | .error e => .error e
  | .ok content => .ok { doc with content := content }

/-- `listDocs` (doc.go:77): fetch the metadata record of each path, in order. -/
def Store.listDocs (s : Store) : List String → Except Err (List Doc)
  | [] => .ok []
  | p :: rest =>
    let doc := getItemD s.docTable p Doc.empty
    match s.listDocs rest with
    | .error e => .error e
    | .ok docs => .ok (doc :: docs)

/-- The path-accumulation loop of `listTaggedDocs` (doc.go:93): `paths`
starts nil; a tag's path set replaces it while it is nil and is intersected
into it afterwards. -/
def Store.taggedPaths (s : Store) : List String → List String → List String
  | [], paths => paths
  | t :: rest, paths =>
    let tag := getItemD s.tagTable t Tag.empty
    s.taggedPaths rest (if paths.isEmpty then tag.paths else intersect paths tag.paths)

/-- `listTaggedDocs` (doc.go:91): accumulate the tag intersection, then fetch
the metadata record of each resulting path. -/
def Store.listTaggedDocs (s : Store) (tags : List String) : Except Err (List Doc) :=
  s.listDocs (s.taggedPaths tags [])

/-- `ListDocs` (doc.go:42): text search (when a query is given) combined with
tag filtering (when tags are given). -/
def Store.ListDocs (s : Store) (query : String) (tags : List String) : Except Err (List Doc) :=
  let foundPaths := if query = "" then [] else s.ti query
  if tags.isEmpty then s.listDocs foundPaths
  else
    match s.listTaggedDocs tags with
    | .error e => .error e
    | .ok tagged =>
      if query = "" then .ok tagged
      else if foundPaths.isEmpty then .ok []
      else .ok (tagged.filter (fun doc => contains foundPaths doc.path))

/-- The tail of `PutDoc` after the existence check (doc.go:136-160): write the
blob, strip the content, put the metadata record, and on metadata failure
roll the blob write back. -/
def Store.putDocFinish (s : Store) (doc : Doc) : Except Err Unit × Store :=
  match s.WriteFile doc.path doc.content with
  | (.error e, s1) => (.error (.wrap "failed to write doc to file store" e), s1)
  | (.ok _, s1) =>
    let doc := { doc with content := "" }
    match s1.putDocItem doc with
    | (.error e, s2) =>
      match s2.RemoveFile doc.path with
      | (.error e2, s3) => (.error (.wrap ("cleanup failed for file: " ++ doc.path) e2), s3)
      | (.ok _, s3) => (.error (.wrap "failed to put doc into dynamo" e), s3)
    | (.ok _, s2) => (.ok (), s2)

/-- `PutDoc` (doc.go:121): reject an empty path, run the existence check via
a full `GetDoc` (discarding the fetched record), stamp `createdAt` on create
and `updatedAt` always, then write both stores. -/
def Store.PutDoc (s : Store) (doc : Doc) (now : Nat) : Except Err Unit × Store :=
  if doc.path = "" then (.error (.msg "can not create a new doc without a path"), s)
  else
    match s.GetDoc doc.path with
    | .error e =>
      if CheckDoesNotExist e then
        s.putDocFinish { doc with createdAt := now, updatedAt := now }
      else
        (.error (.wrap "could not verify existing file" e), s)
    | .ok _ => s.putDocFinish { doc with updatedAt := now }

/-- One iteration of `TagDoc`'s loop (doc.go:167-196): fetch the tag record,
skip when the path is already present, lazily fill the `tag` attribute, append
the path and write the record back. -/
def Store.tagDocOne (s : Store) (path t : String) : Except Err Unit × Store :=
  let tag := getItemD s.tagTable t Tag.empty
  if contains tag.paths path then (.ok (), s)
  else
    let tag1 := if tag.tag = "" then { tag with tag := t } else tag
    s.putTagItem { tag1 with paths := tag1.paths ++ [path] }

/-- `TagDoc` (doc.go:166): process the given tags independently, failing fast
on the first error. -/
def Store.TagDoc (s : Store) (path : String) : List String → Except Err Unit × Store
  | [] => (.ok (), s)
  | t :: rest =>
    match s.tagDocOne path t with
    | (.error e, s1) => (.error e, s1)
    | (.ok _, s1) => s1.TagDoc path rest

/-- `RemoveDoc` (doc.go:202): delete the content blob first, then the
metadata record, aborting on the first failure. -/
def Store.RemoveDoc (s : Store) (path : String) : Except Err Unit × Store :=
  match s.RemoveFile path with
  | (.error e, s1) => (.error (.wrap "failed to remove doc from file store" e), s1)
  | (.ok _, s1) =>
    match s1.deleteDocItem path with
    | (.error e, s2) => (.error (.wrap "failed to delete doc from dynamo" e), s2)
    | (.ok _, s2) => (.ok (), s2)

/-! ## Basic lemmas about the table operations -/

theorem alookup_ainsert {α : Type} (t : List (String × α)) (key k : String) (v : α) :
    alookup (ainsert t key v) k = if k = key then some v else alookup t k := by
  induction t with
  | nil =>
    by_cases h : k = key
    · simp [ainsert, alookup, h]
    · have h' : ¬ key = k := fun hh => h hh.symm
      simp [ainsert, alookup, h, h']
  | cons hd rest ih =>
    obtain ⟨k', w⟩ := hd
    by_cases h : k' = key
    · subst h
      by_cases h2 : k = k'
      · simp [ainsert, alookup, h2]
      · have h2' : ¬ k' = k := fun hh => h2 hh.symm
        simp [ainsert, alookup, h2, h2']
    · by_cases h2 : k' = k
      · subst h2
        have h' : ¬ k' = key := h
        simp [ainsert, alookup, h']
      · simp [ainsert, alookup, h, h2, ih]

theorem alookup_ainsert_self {α : Type} (t : List (String × α)) (key : String) (v : α) :
    alookup (ainsert t key v) key = some v := by
  simp [alookup_ainsert]

theorem alookup_aerase {α : Type} (t : List (String × α)) (key k : String) :
    alookup (aerase t key) k = if k = key then none else alookup t k := by
  induction t with
  | nil => by_cases h : k = key <;> simp [aerase, alookup, h]
  | cons hd rest ih =>
    obtain ⟨k', w⟩ := hd
    by_cases h : k' = key
    · subst h
      by_cases h2 : k = k'
      · subst h2
        simp [aerase, alookup, ih]
      · have h2' : ¬ k' = k := fun hh => h2 hh.symm
        simp [aerase, alookup, h2, h2', ih]
    · by_cases h2 : k' = k
      · subst h2
        have h' : ¬ k' = key := h
        simp [aerase, alookup, h', ih]
      · simp [aerase, alookup, h, h2, ih]

theorem alookup_aerase_self {α : Type} (t : List (String × α)) (key : String) :
    alookup (aerase t key) key = none := by
  simp [alookup_aerase]

theorem contains_iff_mem (xs : List String) (x : String) :
    contains xs x = true ↔ x ∈ xs := by
  induction xs with
  | nil => simp [contains]
  | cons y rest ih =>
    by_cases h : y = x
    · simp [contains, h]
    · have h' : ¬ x = y := fun hh => h hh.symm
      simp [contains, h, ih, h']

theorem contains_append_right (xs : List String) (x : String) :
    contains (xs ++ [x]) x = true := by
  rw [contains_iff_mem]
  simp

/-! ## Shape lemmas for the coordinator operations -/

theorem listDocs_eq_map (s : Store) (paths : List String) :
    s.listDocs paths = .ok (paths.map (fun p => getItemD s.docTable p Doc.empty)) := by
  induction paths with
  | nil => rfl
  | cons p rest ih => simp [Store.listDocs, ih]

theorem GetDoc_error_notFound (s : Store) (path : String) (e : Err)
    (h : s.GetDoc path = .error e) : e = .notFound := by
  unfold Store.GetDoc Store.ReadFile at h
  cases halk : alookup s.files path with
  | some c => simp [halk] at h
  | none =>
    simp [halk] at h
    exact h.symm

theorem PutDoc_eq_finish (s : Store) (doc : Doc) (now : Nat) (h : doc.path ≠ "") :
    (s.PutDoc doc now = s.putDocFinish { doc with createdAt := now, updatedAt := now }
      ∧ (∃ e, s.GetDoc doc.path = .error e)) ∨
    (s.PutDoc doc now = s.putDocFinish { doc with updatedAt := now }
      ∧ (∃ d, s.GetDoc doc.path = .ok d)) := by
  unfold Store.PutDoc
  cases hg : s.GetDoc doc.path with
  | error e =>
    left
    have he := GetDoc_error_notFound s doc.path e hg
    subst he
    simp [h, CheckDoesNotExist]
  | ok d =>
    right
    simp [h]

theorem putDocFinish_ok (s : Store) (doc : Doc)
    (hw : s.writeFileErr = none) (hp : s.putDocItemErr = none) :
    s.putDocFinish doc =
      (.ok (), { s with files := ainsert s.files doc.path doc.content,
                        docTable := ainsert s.docTable doc.path ({ doc with content := "" }) }) := by
  unfold Store.putDocFinish Store.WriteFile Store.putDocItem
  simp [hw, hp]

theorem putDocFinish_putErr_rollbackOk (s : Store) (doc : Doc) (e : Err)
    (hw : s.writeFileErr = none) (hp : s.putDocItemErr = some e)
    (hr : s.removeFileErr = none) :
    s.putDocFinish doc =
      (.error (.wrap "failed to put doc into dynamo" e),
       { s with files := aerase (ainsert s.files doc.path doc.content) doc.path }) := by
  unfold Store.putDocFinish Store.WriteFile Store.putDocItem Store.RemoveFile
  simp [hw, hp, hr]

theorem putDocFinish_putErr_rollbackFail (s : Store) (doc : Doc) (e e2 : Err)
    (hw : s.writeFileErr = none) (hp : s.putDocItemErr = some e)
    (hr : s.removeFileErr = some e2) :
    s.putDocFinish doc =
      (.error (.wrap ("cleanup failed for file: " ++ doc.path) e2),
       { s with files := ainsert s.files doc.path doc.content }) := by
  unfold Store.putDocFinish Store.WriteFile Store.putDocItem Store.RemoveFile
  simp [hw, hp, hr]

theorem tagDocOne_mem (s : Store) (path t : String)
    (h : contains (getItemD s.tagTable t Tag.empty).paths path = true) :
    s.tagDocOne path t = (.ok (), s) := by
  unfold Store.tagDocOne
  simp [h]

theorem tagDocOne_notMem (s : Store) (path t : String)
    (hp : s.putTagItemErr = none)
    (hkey : ∀ tg, alookup s.tagTable t = some tg → tg.tag = t)
    (h : contains (getItemD s.tagTable t Tag.empty).paths path = false) :
    s.tagDocOne path t =
      (.ok (),
       { s with tagTable :=
           ainsert s.tagTable t ({ tag := t, paths := (getItemD s.tagTable t Tag.empty).paths ++ [path] }) }) := by
  unfold Store.tagDocOne Store.putTagItem
  cases halk : alookup s.tagTable t with
  | none => simp [getItemD, halk, Tag.empty, hp, contains]
  | some tg =>
    obtain ⟨tgname, tgpaths⟩ := tg
    have htag : tgname = t := hkey ⟨tgname, tgpaths⟩ halk
    subst htag
    simp only [getItemD, halk, Option.getD_some] at h
    by_cases ht : tgname = ""
    · subst ht
      simp [getItemD, halk, h, hp]
    · simp [getItemD, halk, h, hp, ht]

/-! ## Concrete stores and documents used to instantiate the theorems -/

/-- A text index with no matches for any query. -/
def tiNone : String → List String := fun _ => []

/-- A text index matching path "a" for the query "foo". -/
def tiFoo : String → List String := fun q => if q = "foo" then ["a"] else []

/-- A store with empty tables and no injected store failures. -/
def baseStore : Store :=
  { docTable := [], tagTable := [], files := [], ti := tiNone,
    writeFileErr := none, removeFileErr := none, putDocItemErr := none,
    putTagItemErr := none, deleteItemErr := none }

def docA : Doc := { path := "a", content := "", createdAt := 1, updatedAt := 1 }

def docP : Doc := { path := "p", content := "", createdAt := 1, updatedAt := 1 }

def docB : Doc := { path := "b", content := "x", createdAt := 0, updatedAt := 0 }

def recA5 : Doc := { path := "a", content := "", createdAt := 5, updatedAt := 5 }

def docA0 : Doc := { path := "a", content := "y", createdAt := 0, updatedAt := 0 }

def tagA : Tag := { tag := "a", paths := ["p"] }

def storeA : Store :=
  { baseStore with docTable := [("a", docA)], files := [("a", "hello")], ti := tiFoo }

def storeB : Store :=
  { baseStore with putDocItemErr := some (.fault 1), removeFileErr := some (.fault 2) }

def storeC : Store := { baseStore with putDocItemErr := some (.fault 1) }

def storeD : Store := { baseStore with docTable := [("a", recA5)], files := [("a", "x")] }

def storeE : Store := { baseStore with docTable := [("p", docP)], tagTable := [("a", tagA)] }

def storeF : Store :=
  { baseStore with docTable := [("a", recA5)], files := [("a", "x")],
                   removeFileErr := some (.fault 3) }

def storeG : Store := { baseStore with docTable := [("a", recA5)] }

/-! ## Claim C1 -/

/-- Claim C1, counterexample: with an empty query and no tags, `ListDocs` does
not return the stored corpus — `storeA` holds document `docA`, yet the call
returns the empty list (`foundPaths` stays nil and `listDocs` fetches
nothing). -/
theorem C1_counterexample :
    ("a", docA) ∈ storeA.docTable ∧ storeA.ListDocs "" [] = .ok [] := by
  constructor
  · simp [storeA, baseStore]
  · rfl

/-- Claim C1, amended: with an empty query and no tags, `ListDocs` returns an
empty result (not the entire corpus); with a non-empty query and no tags it
returns exactly the metadata record fetched for each path of the Text Index's
match list, in order. -/
theorem C1_amended (s : Store) (q : String) (hq : q ≠ "") :
    s.ListDocs "" [] = .ok [] ∧
    s.ListDocs q [] = .ok ((s.ti q).map (fun p => getItemD s.docTable p Doc.empty)) := by
  constructor
  · rfl
  · unfold Store.ListDocs
    simp [hq, listDocs_eq_map]

/-- Claim C1, witness: the amended statement instantiated at `storeA` with the
query "foo". -/
theorem C1_witness :
    storeA.ListDocs "" [] = .ok [] ∧
    storeA.ListDocs "foo" [] =
      .ok ((storeA.ti "foo").map (fun p => getItemD storeA.docTable p Doc.empty)) :=
  C1_amended storeA "foo" (by decide)

/-! ## Claim C4 -/

/-- Claim C4, counterexample: an absent tag does not fail the whole query
closed — `storeE` has no record for "missing", yet
`ListDocs "" ["missing", "a"]` returns tag "a"'s document instead of zero
results (the `paths == nil` check skips the absent leading tag). -/
theorem C4_counterexample :
    alookup storeE.tagTable "missing" = none ∧
    storeE.ListDocs "" ["missing", "a"] = .ok [docP] := by
  exact ⟨rfl, rfl⟩

/-- Claim C4, amended: a supplied tag with an empty or absent record yields an
empty result when it is the only tag: `ListDocs` with an empty query and one
nonexistent (or path-less) tag returns an empty result, not an error. -/
theorem C4_amended (s : Store) (t : String)
    (h : (getItemD s.tagTable t Tag.empty).paths = []) :
    s.ListDocs "" [t] = .ok [] := by
  simp [Store.ListDocs, Store.listTaggedDocs, Store.taggedPaths, h, Store.listDocs]

/-- Claim C4, witness: the amended statement instantiated at `storeE` with the
single nonexistent tag "missing". -/
theorem C4_witness : storeE.ListDocs "" ["missing"] = .ok [] :=
  C4_amended storeE "missing" rfl

/-! ## Claim C5 -/

/-- Claim C5 (confirmed): a `TagDoc` call for a tag with no record does not
fail — the absent record reads back as the zero value, the record is lazily
created with the path appended, and the call succeeds. -/
theorem C5_TagDoc_lazyCreate (s : Store) (path t : String)
    (hp : s.putTagItemErr = none) (habs : alookup s.tagTable t = none) :
    (s.TagDoc path [t]).1 = .ok () ∧
    alookup (s.TagDoc path [t]).2.tagTable t = some { tag := t, paths := [path] } := by
  have hc : contains (getItemD s.tagTable t Tag.empty).paths path = false := by
    simp [getItemD, habs, Tag.empty, contains]
  have h1 := tagDocOne_notMem s path t hp
    (fun tg hg => by rw [habs] at hg; exact Option.noConfusion hg) hc
  rw [getItemD, habs] at h1
  simp only [Option.getD_none] at h1
  simp [Store.TagDoc, h1, alookup_ainsert_self, Tag.empty]

/-- Claim C5, witness: tagging path "p" with the previously unseen tag "t" in
the empty store succeeds and creates the record. -/
theorem C5_witness :
    (baseStore.TagDoc "p" ["t"]).1 = .ok () ∧
    alookup (baseStore.TagDoc "p" ["t"]).2.tagTable "t" = some { tag := "t", paths := ["p"] } :=
  C5_TagDoc_lazyCreate baseStore "p" "t" rfl rfl

/-! ## Claim C8 -/

/-- Claim C8 (confirmed): `RemoveDoc` deletes the content blob before the
metadata record. If the content deletion fails it returns that error
immediately and the whole store state — the metadata record in particular —
is unchanged; if the content deletion succeeds and the metadata deletion
fails, the metadata record is still intact only in the reverse sense: the
blob is gone while the metadata table is untouched, so a state with metadata
gone but content still present is never produced. -/
theorem C8_RemoveDoc_failClosed (s : Store) (path : String) :
    (∀ e, s.removeFileErr = some e →
      (s.RemoveDoc path).1 = .error (.wrap "failed to remove doc from file store" e) ∧
      (s.RemoveDoc path).2 = s) ∧
    (∀ e, s.removeFileErr = none → s.deleteItemErr = some e →
      (s.RemoveDoc path).1 = .error (.wrap "failed to delete doc from dynamo" e) ∧
      (s.RemoveDoc path).2.docTable = s.docTable ∧
      alookup (s.RemoveDoc path).2.files path = none) := by
  constructor
  · intro e he
    unfold Store.RemoveDoc Store.RemoveFile
    simp [he]
  · intro e hr hd
    unfold Store.RemoveDoc Store.RemoveFile Store.deleteDocItem
    simp [hr, hd, alookup_aerase_self]

/-- Claim C8, witness: in `storeF` the file-store remove fails with
`fault 3`; `RemoveDoc` reports exactly that error and leaves the store
unchanged. -/
theorem C8_witness :
    (storeF.RemoveDoc "a").1 = .error (.wrap "failed to remove doc from file store" (.fault 3)) ∧
    (storeF.RemoveDoc "a").2 = storeF :=
  (C8_RemoveDoc_failClosed storeF "a").1 (.fault 3) rfl

/-! ## Claim C2 -/

/-- Claim C2, counterexample: in `storeB` the metadata put fails with
`fault 1` and the rollback delete fails with `fault 2`; `PutDoc` returns an
error wrapping only the rollback failure, and that error nowhere mentions the
original metadata-write error `fault 1` — so the call does not report both
failures. -/
theorem C2_counterexample :
    (storeB.PutDoc docB 5).1 = .error (.wrap "cleanup failed for file: b" (.fault 2)) ∧
    Err.mentions (.wrap "cleanup failed for file: b" (.fault 2)) (.fault 1) = false := by
  exact ⟨rfl, rfl⟩

/-- Claim C2, amended: when the metadata write fails, `PutDoc` attempts to
delete the just-written blob. If the rollback delete succeeds, the returned
error wraps only the original metadata-write failure (and the blob is gone);
if the rollback delete fails, the returned error wraps only the rollback
failure — the original metadata-write error is dropped — and the blob is left
orphaned in the content store. -/
theorem C2_amended (s : Store) (doc : Doc) (now : Nat) (e : Err)
    (hpath : doc.path ≠ "") (hw : s.writeFileErr = none)
    (hp : s.putDocItemErr = some e) :
    (s.removeFileErr = none →
      (s.PutDoc doc now).1 = .error (.wrap "failed to put doc into dynamo" e) ∧
      alookup (s.PutDoc doc now).2.files doc.path = none) ∧
    (∀ e2, s.removeFileErr = some e2 →
      (s.PutDoc doc now).1 = .error (.wrap ("cleanup failed for file: " ++ doc.path) e2) ∧
      alookup (s.PutDoc doc now).2.files doc.path = some doc.content) := by
  rcases PutDoc_eq_finish s doc now hpath with ⟨heq, -⟩ | ⟨heq, -⟩ <;>
  · rw [heq]
    constructor
    · intro hr
      rw [putDocFinish_putErr_rollbackOk s _ e hw hp hr]
      simp [alookup_aerase_self]
    · intro e2 hr
      rw [putDocFinish_putErr_rollbackFail s _ e e2 hw hp hr]
      simp [alookup_ainsert_self]

/-- Claim C2, witness: in `storeC` the metadata put fails with `fault 1` and
the rollback delete succeeds; `PutDoc` reports the metadata-write failure and
the blob is rolled back. -/
theorem C2_witness :
    (storeC.PutDoc docB 5).1 = .error (.wrap "failed to put doc into dynamo" (.fault 1)) ∧
    alookup (storeC.PutDoc docB 5).2.files docB.path = none :=
  (C2_amended storeC docB 5 (.fault 1) (by decide) rfl rfl).1 rfl

/-! ## Claim C3 -/

/-- Claim C3, counterexample: `storeD` already holds a record for path "a"
with `createdAt = 5`, but `PutDoc` of a caller document carrying
`createdAt = 0` stores `createdAt = 0` — the existing record's timestamp is
not preserved, because `PutDoc` discards the fetched record and keeps the
caller-supplied field. -/
theorem C3_counterexample :
    alookup storeD.docTable "a" = some recA5 ∧
    recA5.createdAt = 5 ∧
    (storeD.PutDoc docA0 9).1 = .ok () ∧
    alookup (storeD.PutDoc docA0 9).2.docTable "a" =
      some { path := "a", content := "", createdAt := 0, updatedAt := 9 } := by
  exact ⟨rfl, rfl, rfl, rfl⟩

/-- Claim C3, amended: when the existence fetch fails with `NotFound`,
`PutDoc` stores `createdAt = now = updatedAt`; when the fetch succeeds, the
stored `createdAt` is the caller-supplied `doc.createdAt` (the existing
record's value is discarded) while `updatedAt` is refreshed to `now`. -/
theorem C3_amended (s : Store) (doc : Doc) (now : Nat)
    (hpath : doc.path ≠ "") (hw : s.writeFileErr = none)
    (hp : s.putDocItemErr = none) :
    ((∃ e, s.GetDoc doc.path = .error e) →
      (s.PutDoc doc now).1 = .ok () ∧
      alookup (s.PutDoc doc now).2.docTable doc.path =
        some { doc with content := "", createdAt := now, updatedAt := now }) ∧
    (∀ d, s.GetDoc doc.path = .ok d →
      (s.PutDoc doc now).1 = .ok () ∧
      alookup (s.PutDoc doc now).2.docTable doc.path =
        some { doc with content := "", updatedAt := now }) := by
  rcases PutDoc_eq_finish s doc now hpath with ⟨heq, he⟩ | ⟨heq, hd⟩
  · constructor
    · intro _
      rw [heq, putDocFinish_ok s _ hw hp]
      simp [alookup_ainsert_self]
    · intro d hdok
      obtain ⟨e, he'⟩ := he
      rw [hdok] at he'
      exact Except.noConfusion he'
  · constructor
    · intro hex
      obtain ⟨e, he'⟩ := hex
      obtain ⟨d, hd'⟩ := hd
      rw [hd'] at he'
      exact Except.noConfusion he'
    · intro d _
      rw [heq, putDocFinish_ok s _ hw hp]
      simp [alookup_ainsert_self]

/-- Claim C3, witness: the amended statement's update branch instantiated at
`storeD` (existing record with `createdAt = 5`, caller document with
`createdAt = 0`). -/
theorem C3_witness :
    (storeD.PutDoc docA0 9).1 = .ok () ∧
    alookup (storeD.PutDoc docA0 9).2.docTable docA0.path =
      some { docA0 with content := "", updatedAt := 9 } :=
  (C3_amended storeD docA0 9 (by decide) rfl rfl).2
    { path := "a", content := "x", createdAt := 5, updatedAt := 5 } rfl

/-! ## Claim C6 -/

/-- Claim C6 (confirmed): a successful `PutDoc` followed by `GetDoc` for the
same non-empty path returns a document whose `content` and `path` equal the
ones passed to `PutDoc`. -/
theorem C6_PutDoc_GetDoc (s : Store) (doc : Doc) (now : Nat)
    (hpath : doc.path ≠ "") (hw : s.writeFileErr = none)
    (hp : s.putDocItemErr = none) :
    (s.PutDoc doc now).1 = .ok () ∧
    ∃ d, (s.PutDoc doc now).2.GetDoc doc.path = .ok d ∧
      d.content = doc.content ∧ d.path = doc.path := by
  rcases PutDoc_eq_finish s doc now hpath with ⟨heq, -⟩ | ⟨heq, -⟩ <;>
  · rw [heq, putDocFinish_ok s _ hw hp]
    refine ⟨rfl, ?_⟩
    unfold Store.GetDoc Store.ReadFile getItemD
    simp [alookup_ainsert_self]

/-- Claim C6, witness: putting `docB` into the empty store and reading it
back. -/
theorem C6_witness :
    (baseStore.PutDoc docB 5).1 = .ok () ∧
    ∃ d, (baseStore.PutDoc docB 5).2.GetDoc docB.path = .ok d ∧
      d.content = docB.content ∧ d.path = docB.path :=
  C6_PutDoc_GetDoc baseStore docB 5 (by decide) rfl rfl

/-! ## Claim C9 -/

/-- Every document record stored in a metadata doc table carries an empty
content field. -/
def DocTableContentEmpty (t : List (String × Doc)) : Prop :=
  ∀ k d, alookup t k = some d → d.content = ""

theorem putDocFinish_contentEmpty (s : Store) (doc : Doc)
    (hinv : DocTableContentEmpty s.docTable) :
    DocTableContentEmpty (s.putDocFinish doc).2.docTable := by
  cases hw : s.writeFileErr with
  | some e =>
    have hfin : s.putDocFinish doc = (.error (.wrap "failed to write doc to file store" e), s) := by
      unfold Store.putDocFinish Store.WriteFile
      simp [hw]
    rw [hfin]
    exact hinv
  | none =>
    cases hp : s.putDocItemErr with
    | none =>
      rw [putDocFinish_ok s doc hw hp]
      intro k d hkd
      rw [alookup_ainsert] at hkd
      split at hkd
      · cases hkd
        rfl
      · exact hinv k d hkd
    | some e =>
      cases hr : s.removeFileErr with
      | none =>
        rw [putDocFinish_putErr_rollbackOk s doc e hw hp hr]
        exact hinv
      | some e2 =>
        rw [putDocFinish_putErr_rollbackFail s doc e e2 hw hp hr]
        exact hinv

/-- Claim C9 (confirmed): `PutDoc` preserves the invariant that every record
in the metadata doc table has an empty content field — content is stripped
from the in-memory record before the metadata write, in every branch. -/
theorem C9_PutDoc_contentEmpty (s : Store) (doc : Doc) (now : Nat)
    (hinv : DocTableContentEmpty s.docTable) :
    DocTableContentEmpty (s.PutDoc doc now).2.docTable := by
  by_cases hpath : doc.path = ""
  · unfold Store.PutDoc
    simp only [hpath, if_pos rfl]
    exact hinv
  · rcases PutDoc_eq_finish s doc now hpath with ⟨heq, -⟩ | ⟨heq, -⟩ <;>
    · rw [heq]
      exact putDocFinish_contentEmpty s _ hinv

/-- Claim C9, witness: the invariant holds after putting `docB` (which has
non-empty content) into the empty store. -/
theorem C9_witness : DocTableContentEmpty (baseStore.PutDoc docB 5).2.docTable :=
  C9_PutDoc_contentEmpty baseStore docB 5 (fun _ _ h => Option.noConfusion h)

/-! ## Claim C10 -/

/-- Claim C10, counterexample: `storeG` has a metadata record for "a" but no
content blob; `PutDoc` does not return an error — it succeeds, writes the
blob and overwrites the metadata record as a create (`createdAt` reset). -/
theorem C10_counterexample :
    alookup storeG.docTable "a" = some recA5 ∧
    alookup storeG.files "a" = none ∧
    (storeG.PutDoc docA0 9).1 = .ok () ∧
    alookup (storeG.PutDoc docA0 9).2.files "a" = some "y" ∧
    alookup (storeG.PutDoc docA0 9).2.docTable "a" =
      some { path := "a", content := "", createdAt := 9, updatedAt := 9 } := by
  exact ⟨rfl, rfl, rfl, rfl, rfl⟩

/-- Claim C10, amended: for a path whose metadata record exists but whose
content blob is missing, the existence check's `GetDoc` fails with the
content store's `NotFound`, which is classified as "does not exist" —
`PutDoc` therefore treats the path as a create: it succeeds, resets
`createdAt` to `now` and writes both stores. -/
theorem C10_amended (s : Store) (doc existing : Doc) (now : Nat)
    (hpath : doc.path ≠ "")
    (hmeta : alookup s.docTable doc.path = some existing)
    (hblob : alookup s.files doc.path = none)
    (hw : s.writeFileErr = none) (hp : s.putDocItemErr = none) :
    (s.PutDoc doc now).1 = .ok () ∧
    alookup (s.PutDoc doc now).2.docTable doc.path =
      some { doc with content := "", createdAt := now, updatedAt := now } ∧
    alookup (s.PutDoc doc now).2.files doc.path = some doc.content := by
  have hget : s.GetDoc doc.path = .error .notFound := by
    unfold Store.GetDoc Store.ReadFile
    simp [hblob]
  have heq : s.PutDoc doc now =
      s.putDocFinish ({ doc with createdAt := now, updatedAt := now }) := by
    unfold Store.PutDoc
    rw [hget]
    simp [hpath, CheckDoesNotExist]
  rw [heq, putDocFinish_ok s _ hw hp]
  refine ⟨rfl, ?_, ?_⟩
  · simp [alookup_ainsert_self]
  · simp [alookup_ainsert_self]

/-- Claim C10, witness: the amended statement instantiated at `storeG`. -/
theorem C10_witness :
    (storeG.PutDoc docA0 9).1 = .ok () ∧
    alookup (storeG.PutDoc docA0 9).2.docTable docA0.path =
      some { docA0 with content := "", createdAt := 9, updatedAt := 9 } ∧
    alookup (storeG.PutDoc docA0 9).2.files docA0.path = some docA0.content :=
  C10_amended storeG docA0 recA5 9 (by decide) rfl rfl rfl rfl

/-! ## Claim C7 -/

theorem TagDoc_single (s : Store) (path t : String) :
    s.TagDoc path [t] = s.tagDocOne path t := by
  cases h : s.tagDocOne path t with
  | mk r s1 =>
    cases r with
    | error e => simp [Store.TagDoc, h]
    | ok u =>
      cases u
      simp [Store.TagDoc, h]

/-- Tag tables are keyed consistently: a record stored under key `k` carries
`tag = k` (the invariant `putTagItem`'s keying by the `tag` attribute
maintains). -/
def TagTableWellKeyed (t : List (String × Tag)) : Prop :=
  ∀ k tg, alookup t k = some tg → tg.tag = k

/-- Every tag record's path set is duplicate-free. -/
def TagTableNodup (t : List (String × Tag)) : Prop :=
  ∀ k tg, alookup t k = some tg → tg.paths.Nodup

/-- Claim C7 (confirmed): `TagDoc` is idempotent per tag — calling
`TagDoc path [t]` twice leaves tag `t`'s path set containing `path` exactly
once — and a single `TagDoc` call preserves the invariant that any path
appears at most once in every tag record's path set. -/
theorem C7_TagDoc_idempotent (s : Store) (path t : String)
    (hp : s.putTagItemErr = none)
    (hkey : TagTableWellKeyed s.tagTable)
    (hnd : TagTableNodup s.tagTable) :
    (getItemD ((s.TagDoc path [t]).2.TagDoc path [t]).2.tagTable t Tag.empty).paths.count path
      = 1 ∧
    TagTableNodup (s.TagDoc path [t]).2.tagTable := by
  have hnd0 : (getItemD s.tagTable t Tag.empty).paths.Nodup := by
    unfold getItemD
    cases halk : alookup s.tagTable t with
    | none => simp [Tag.empty]
    | some tg => simpa using hnd t tg halk
  by_cases hc : contains (getItemD s.tagTable t Tag.empty).paths path = true
  · have h1 : s.TagDoc path [t] = (.ok (), s) := by
      rw [TagDoc_single]
      exact tagDocOne_mem s path t hc
    have h2 : (s.TagDoc path [t]).2 = s := by
      rw [h1]
    have h3 : ((s.TagDoc path [t]).2.TagDoc path [t]).2 = s := by
      rw [h2]
      exact h2
    rw [h3, h2]
    constructor
    · exact List.count_eq_one_of_mem hnd0 ((contains_iff_mem _ _).mp hc)
    · exact hnd
  · have hc' : contains (getItemD s.tagTable t Tag.empty).paths path = false := by
      cases hcc : contains (getItemD s.tagTable t Tag.empty).paths path with
      | true => exact absurd hcc hc
      | false => rfl
    have hnotmem : path ∉ (getItemD s.tagTable t Tag.empty).paths := by
      intro hmem
      rw [(contains_iff_mem _ _).mpr hmem] at hc'
      exact Bool.noConfusion hc'
    have hkt : ∀ tg, alookup s.tagTable t = some tg → tg.tag = t := fun tg h => hkey t tg h
    have h1 : s.TagDoc path [t] =
        (.ok (),
         { s with tagTable :=
             ainsert s.tagTable t ({ tag := t, paths := (getItemD s.tagTable t Tag.empty).paths ++ [path] }) }) := by
      rw [TagDoc_single]
      exact tagDocOne_notMem s path t hp hkt hc'
    have h2 : (s.TagDoc path [t]).2 =
        { s with tagTable :=
            ainsert s.tagTable t ({ tag := t, paths := (getItemD s.tagTable t Tag.empty).paths ++ [path] }) } := by
      rw [h1]
    have hlook1 : alookup (s.TagDoc path [t]).2.tagTable t =
        some { tag := t, paths := (getItemD s.tagTable t Tag.empty).paths ++ [path] } := by
      rw [h2]
      exact alookup_ainsert_self _ _ _
    have hmem1 : contains (getItemD (s.TagDoc path [t]).2.tagTable t Tag.empty).paths path
        = true := by
      unfold getItemD
      rw [hlook1]
      simp only [Option.getD_some]
      exact contains_append_right _ _
    have h3 : ((s.TagDoc path [t]).2.TagDoc path [t]).2 = (s.TagDoc path [t]).2 := by
      rw [TagDoc_single]
      rw [tagDocOne_mem _ path t hmem1]
    constructor
    · rw [h3]
      unfold getItemD
      rw [hlook1]
      simp only [Option.getD_some]
      rw [← List.concat_eq_append, List.count_concat, List.count_eq_zero_of_not_mem hnotmem]
    · rw [h2]
      show TagTableNodup
        (ainsert s.tagTable t ({ tag := t, paths := (getItemD s.tagTable t Tag.empty).paths ++ [path] }))
      intro k tg hk
      rw [alookup_ainsert] at hk
      split at hk
      · cases hk
        exact hnd0.append (List.nodup_singleton path) (List.disjoint_singleton.mpr hnotmem)
      · exact hnd k tg hk

/-- Claim C7, witness: tagging "p" with "t" twice in the empty store leaves
the tag record containing "p" exactly once, and the duplicate-free invariant
holds afterwards. -/
theorem C7_witness :
    (getItemD ((baseStore.TagDoc "p" ["t"]).2.TagDoc "p" ["t"]).2.tagTable "t" Tag.empty).paths.count "p"
      = 1 ∧
    TagTableNodup (baseStore.TagDoc "p" ["t"]).2.tagTable :=
  C7_TagDoc_idempotent baseStore "p" "t" rfl
    (fun _ _ h => Option.noConfusion h) (fun _ _ h => Option.noConfusion h)

end Skribe
